import Mathlib

/-!
Shallow embedding of the git-lfs-gcs custom transfer agent
(src/git_lfs_gcs.py): the chunked `transfer` generator, the `download`
and `upload` operations of `GCSTransport`, and the stdin/stdout protocol
loop (`agent`).

Modelling conventions:
* bytes are `Nat`, byte strings are `List Nat`;
* the local filesystem (`FS`) and the GCS backend (`Backend`) are
  association lists from string keys to contents;
* a backend blob carries an optional fault point `failAfterReads`
  modelling the stream raising an exception on the n-th `read` call
  (`none` means reads never fail);
* generator output is collected into a `List Event`; an exception that
  escapes an operation is an `Option String` in the result;
* `stdin` is a list of already split lines, each either invalid JSON or
  a decoded request object.
-/

def MB : Nat := 1024 * 1024

def CHUNK_SIZE : Nat := 4 * MB

/-- The error object attached to a failed `complete` event:
`{"code": 2, "message": str(e)}`. -/
structure LfsError where
  code : Nat
  message : String
  deriving DecidableEq

/-- One outbound JSON line of the agent: the empty handshake
acknowledgement, a progress event, or a terminal complete event. -/
inductive Event where
  | ack : Event
  | progress (oid : String) (bytesSoFar : Nat) (bytesSinceLast : Nat) : Event
  | complete (oid : String) (path : Option String) (error : Option LfsError) : Event
  deriving DecidableEq

/-- Local filesystem: association list from path to file contents. -/
abbrev FS := List (String × List Nat)

/-- A stored backend object: its bytes, plus an optional fault point
(the read call index on which the backend stream raises). -/
structure Blob where
  data : List Nat
  failAfterReads : Option Nat
  deriving DecidableEq

/-- The GCS backend: association list from object URI to blob. -/
abbrev Backend := List (String × Blob)

def lookupKV {α : Type} : List (String × α) → String → Option α
  | [], _ => none
  | (k, v) :: rest, key => if k = key then some v else lookupKV rest key

def insertKV {α : Type} (l : List (String × α)) (key : String) (v : α) :
    List (String × α) :=
  (key, v) :: l

def eraseKV {α : Type} : List (String × α) → String → List (String × α)
  | [], _ => []
  | (k, v) :: rest, key =>
      if k = key then eraseKV rest key else (k, v) :: eraseKV rest key

/-- `os.path.join(self.url, oid)` for a bucket URL without trailing
slash and a plain oid. -/
def pathJoin (base p : String) : String := base ++ "/" ++ p

/-- `transfer(oid, src, dst)` from src/git_lfs_gcs.py lines 108-118:
reads `CHUNK_SIZE`-byte chunks from `src` until an empty read, writes
each chunk to `dst`, and yields one progress event per chunk with the
running total.  `failAfter` is the fault point of the source stream
(`some 0` means the very next read raises); `total` is the running
`total` variable; `fuel` bounds the recursion and is set by the
`transfer` wrapper to more than the number of reads ever needed.
Returns (yielded events, bytes written to dst, escaped exception). -/
def transferGo (oid : String) :
    Option Nat → Nat → Nat → List Nat → List Event × List Nat × Option String
  | some 0, _, _, _ => ([], [], some "backend read failed")
  | _, _, _, [] => ([], [], none)
  | _, _, 0, _ :: _ => ([], [], some "transfer fuel exhausted")
  | fa, total, fuel + 1, b :: bs =>
      let chunk := (b :: bs).take CHUNK_SIZE
      let r := transferGo oid (Option.map (fun n => n - 1) fa)
        (total + chunk.length) fuel ((b :: bs).drop CHUNK_SIZE)
      (Event.progress oid (total + chunk.length) chunk.length :: r.1,
       chunk ++ r.2.1, r.2.2)

/-- The `transfer` generator run to exhaustion on a source of known
contents: fuel `src.length + 1` always suffices because every
successful read consumes at least one byte. -/
def transfer (oid : String) (failAfter : Option Nat) (src : List Nat) :
    List Event × List Nat × Option String :=
  transferGo oid failAfter 0 (src.length + 1) src

/-- The deterministic temporary destination path
`lfs-download-<oid>.tmp` of `GCSTransport.download`. -/
def downloadPath (oid : String) : String :=
  "lfs-download-" ++ oid ++ ".tmp"

/-- Result of running the `download` generator to exhaustion: the
events it yielded, the local filesystem afterwards, and the escaped
exception if any. -/
structure DlResult where
  events : List Event
  fs : FS
  err : Option String
  deriving DecidableEq

/-- `GCSTransport.download` from src/git_lfs_gcs.py lines 36-44: open
the backend blob at `join(url, oid)` for reading (raises when the
object is missing), open the temp destination through
`open_auto_cleanup` (lines 134-141: on any exception the destination
file is unlinked and the exception re-raised), stream through
`transfer`, then yield the final complete event carrying the temp
path. -/
def download (url : String) (bk : Backend) (fs : FS) (oid : String) : DlResult :=
  let path := downloadPath oid
  match lookupKV bk (pathJoin url oid) with
  | none => ⟨[], fs, some ("no such object: " ++ pathJoin url oid)⟩
  | some blob =>
      let r := transfer oid blob.failAfterReads blob.data
      match r.2.2 with
      | none =>
          ⟨r.1 ++ [Event.complete oid (some path) none],
           insertKV fs path r.2.1, none⟩
      | some e => ⟨r.1, eraseKV fs path, some e⟩

/-- Result of running the `upload` generator to exhaustion. -/
structure UlResult where
  events : List Event
  backend : Backend
  err : Option String
  deriving DecidableEq

/-- `GCSTransport.upload` from src/git_lfs_gcs.py lines 46-55: open the
local file at `path` for reading (raises when missing), open the
backend blob at `join(url, oid)` for writing, stream through
`transfer`, then yield the final complete event (no path).  On success
the backend holds exactly the written bytes under the object URI; local
reads are modelled as fault-free. -/
def upload (url : String) (bk : Backend) (fs : FS) (oid : String)
    (path : String) : UlResult :=
  match lookupKV fs path with
  | none => ⟨[], bk, some ("no such file: " ++ path)⟩
  | some data =>
      let r := transfer oid none data
      match r.2.2 with
      | none =>
          ⟨r.1 ++ [Event.complete oid none none],
           insertKV bk (pathJoin url oid) ⟨r.2.1, none⟩, none⟩
      | some e => ⟨r.1, bk, some e⟩

/-- One decoded request object.  `event` and `oid` are `none` when the
JSON object lacks the field; `action` records whether the ignored
`action` field is present; `extra` lists the names of any further
fields not named in the operations' signatures. -/
structure Request where
  event : Option String
  oid : Option String
  path : Option String
  size : Option Nat
  action : Bool
  extra : List String
  deriving DecidableEq

/-- One line read from stdin: invalid JSON (``loads`` raises) or a
decoded request object. -/
inductive Line where
  | invalid : Line
  | req (r : Request) : Line
  deriving DecidableEq

/-- Outcome of the body of the `try` block in `agent` (lines 99-101):
the events responded so far, the resulting local filesystem and
backend, and the exception that escaped, if any. -/
structure OpResult where
  events : List Event
  fs : FS
  backend : Backend
  err : Option String
  deriving DecidableEq

/-- `getattr(client, event)(oid=oid, **request)` from src/git_lfs_gcs.py
line 100, including Python call binding: `download` has signature
`(oid, size, action=None)` and `upload` has `(oid, path, size,
action=None)`, so a missing required argument or a keyword not in the
signature raises `TypeError` before the generator starts; any event
name other than `download`/`upload` fails at lookup or call time. -/
def dispatch (url : String) (fs : FS) (bk : Backend) (event : String)
    (oid : String) (r : Request) : OpResult :=
  if event = "download" then
    if r.path.isSome ∨ r.extra ≠ [] then
      ⟨[], fs, bk, some "download got an unexpected keyword argument"⟩
    else if r.size.isNone then
      ⟨[], fs, bk, some "download missing required argument size"⟩
    else
      let d := download url bk fs oid
      ⟨d.events, d.fs, bk, d.err⟩
  else if event = "upload" then
    if r.extra ≠ [] then
      ⟨[], fs, bk, some "upload got an unexpected keyword argument"⟩
    else
      match r.path, r.size with
      | some p, some _ =>
          let u := upload url bk fs oid p
          ⟨u.events, fs, u.backend, u.err⟩
      | _, _ => ⟨[], fs, bk, some "upload missing required argument"⟩
  else
    ⟨[], fs, bk, some ("not a transfer operation: " ++ event)⟩

/-- Result of one iteration of the dispatch `try`/`except`. -/
structure HandleResult where
  events : List Event
  fs : FS
  backend : Backend
  deriving DecidableEq

/-- The `try`/`except` of src/git_lfs_gcs.py lines 99-105: run the
operation, responding each yielded event; if an exception escapes,
respond one complete event carrying error code 2 and the exception
message, and carry on. -/
def handleRequest (url : String) (fs : FS) (bk : Backend) (event : String)
    (oid : String) (r : Request) : HandleResult :=
  let o := dispatch url fs bk event oid r
  match o.err with
  | none => ⟨o.events, o.fs, o.backend⟩
  | some e =>
      ⟨o.events ++ [Event.complete oid none (some ⟨2, e⟩)], o.fs, o.backend⟩

/-- Result of the request loop: the responded events, final local
filesystem and backend, and whether the loop ended cleanly (`break` on
terminate or end of input, exit status 0) or crashed on an uncaught
exception (exit status nonzero). -/
structure LoopResult where
  output : List Event
  fs : FS
  backend : Backend
  clean : Bool
  deriving DecidableEq

/-- The request loop of `agent`, src/git_lfs_gcs.py lines 94-105: for
each stdin line, decode it (a decode error is uncaught), pop `event`
(a missing field is an uncaught KeyError), break on `terminate`, pop
`oid` (uncaught KeyError when missing — this happens outside the
`try`), then dispatch inside the `try`/`except`. -/
def agentLoop (url : String) (fs : FS) (bk : Backend) : List Line → LoopResult
  | [] => ⟨[], fs, bk, true⟩
  | Line.invalid :: _ => ⟨[], fs, bk, false⟩
  | Line.req r :: rest =>
      match r.event with
      | none => ⟨[], fs, bk, false⟩
      | some ev =>
          if ev = "terminate" then ⟨[], fs, bk, true⟩
          else
            match r.oid with
            | none => ⟨[], fs, bk, false⟩
            | some oid =>
                let h := handleRequest url fs bk ev oid r
                let k := agentLoop url h.fs h.backend rest
                ⟨h.events ++ k.output, k.fs, k.backend, k.clean⟩

/-- Result of a whole agent session. `exitZero` is true exactly when
the process exits with status 0. -/
structure AgentResult where
  output : List Event
  fs : FS
  backend : Backend
  exitZero : Bool
  deriving DecidableEq

/-- `agent()` from src/git_lfs_gcs.py lines 85-105: read the first
line (reading past end of input or invalid JSON raises), assert its
event is `init`, resolve the configured LFS url through
`GCSTransport.create` (lines 21-27: raises when unset), emit the empty
acknowledgement, then run the request loop.  `cfg` is the resolved
`lfs.url` configuration value (`none` when unset or empty). -/
def agent (cfg : Option String) (input : List Line) (fs : FS) (bk : Backend) :
    AgentResult :=
  match input with
  | [] => ⟨[], fs, bk, false⟩
  | Line.invalid :: _ => ⟨[], fs, bk, false⟩
  | Line.req first :: rest =>
      if first.event ≠ some "init" then ⟨[], fs, bk, false⟩
      else
        match cfg with
        | none => ⟨[], fs, bk, false⟩
        | some url =>
            let k := agentLoop url fs bk rest
            ⟨Event.ack :: k.output, k.fs, k.backend, k.clean⟩

/-- Whether an event is a terminal `complete` event. -/
def isCompleteEvent : Event → Bool
  | Event.complete _ _ _ => true
  | _ => false

/-- Number of `complete` events in a list of events. -/
def countComplete (events : List Event) : Nat :=
  (events.filter isCompleteEvent).length

/-- The chunk size constant is positive, so every successful read of a
nonempty source consumes at least one byte. -/
theorem chunkSize_pos : 0 < CHUNK_SIZE := by decide

/-- With a fault-free source and enough fuel, `transfer` writes exactly
the source bytes to the destination and raises nothing. -/
theorem transferGo_none_written_err (oid : String) :
    ∀ fuel src total, src.length < fuel →
      (transferGo oid none total fuel src).2 = (src, none) := by
  intro fuel
  induction fuel with
  | zero => intro src total h; exact absurd h (by omega)
  | succ fuel ih =>
      intro src total h
      cases src with
      | nil => rfl
      | cons b bs =>
          simp only [transferGo, Option.map_none']
          have hlen : ((b :: bs).drop CHUNK_SIZE).length < fuel := by
            have hc : (0:Nat) < CHUNK_SIZE := chunkSize_pos
            simp only [List.length_drop, List.length_cons] at *
            omega
          rw [ih ((b :: bs).drop CHUNK_SIZE) _ hlen]
          simp [List.take_append_drop]

/-- One step of the ceiling-division recurrence used to count chunks. -/
theorem ceil_div_step (n c : Nat) (hc : 0 < c) (hn : 0 < n) :
    (n + c - 1) / c = (n - c + c - 1) / c + 1 := by
  rcases Nat.lt_or_ge n c with h | h
  · have h1 : n - c = 0 := by omega
    have h2 : (c - 1) / c = 0 := Nat.div_eq_of_lt (by omega)
    have h3 : n + c - 1 = (n - 1) + c := by omega
    have h4 : (n - 1) / c = 0 := Nat.div_eq_of_lt (by omega)
    rw [h1, h3, Nat.add_div_right _ hc, h4]
    simpa using h2
  · have h3 : n + c - 1 = (n - 1) + c := by omega
    have h4 : n - c + c - 1 = n - 1 := by omega
    rw [h3, h4, Nat.add_div_right _ hc]

/-- With a fault-free source and enough fuel, `transfer` yields one
progress event per chunk: ceil of the source length over `CHUNK_SIZE`. -/
theorem transferGo_none_count (oid : String) :
    ∀ fuel src total, src.length < fuel →
      (transferGo oid none total fuel src).1.length =
        (src.length + CHUNK_SIZE - 1) / CHUNK_SIZE := by
  intro fuel
  induction fuel with
  | zero => intro src total h; exact absurd h (by omega)
  | succ fuel ih =>
      intro src total h
      cases src with
      | nil =>
          have : (CHUNK_SIZE - 1) / CHUNK_SIZE = 0 :=
            Nat.div_eq_of_lt (by have := chunkSize_pos; omega)
          simpa [transferGo] using this.symm
      | cons b bs =>
          have hc : (0:Nat) < CHUNK_SIZE := chunkSize_pos
          have hlen : ((b :: bs).drop CHUNK_SIZE).length < fuel := by
            simp only [List.length_drop, List.length_cons] at *
            omega
          simp only [transferGo, Option.map_none', List.length_cons]
          rw [ih ((b :: bs).drop CHUNK_SIZE) _ hlen]
          rw [List.length_drop]
          simp only [List.length_cons]
          rw [ceil_div_step (bs.length + 1) CHUNK_SIZE hc (by omega)]

/-- The last element of a cons is the last element of the nonempty tail. -/
theorem getLast?_cons_of_ne_nil {α : Type} (x : α) {l : List α} (h : l ≠ []) :
    (x :: l).getLast? = l.getLast? := by
  cases l with
  | nil => exact absurd rfl h
  | cons y ys => exact List.getLast?_cons_cons

/-- With a fault-free nonempty source, the last progress event reports
a cumulative `bytesSoFar` equal to the running total plus the source
length. -/
theorem transferGo_none_last (oid : String) :
    ∀ fuel src total, src.length < fuel → src ≠ [] →
      ∃ k, (transferGo oid none total fuel src).1.getLast? =
        some (Event.progress oid (total + src.length) k) := by
  intro fuel
  induction fuel with
  | zero => intro src total h _; exact absurd h (by omega)
  | succ fuel ih =>
      intro src total h hne
      cases src with
      | nil => exact absurd rfl hne
      | cons b bs =>
          have hc : (0:Nat) < CHUNK_SIZE := chunkSize_pos
          have hbs : (b :: bs).length = bs.length + 1 := List.length_cons _ _
          have hdr : ((b :: bs).drop CHUNK_SIZE).length =
              (b :: bs).length - CHUNK_SIZE := List.length_drop _ _
          have hlen : ((b :: bs).drop CHUNK_SIZE).length < fuel := by omega
          simp only [transferGo, Option.map_none']
          by_cases hr : (b :: bs).drop CHUNK_SIZE = []
          · have hrec : (transferGo oid none
                (total + ((b :: bs).take CHUNK_SIZE).length) fuel
                ((b :: bs).drop CHUNK_SIZE)).1 = [] := by
              rw [hr]
              cases fuel <;> rfl
            have h0 : (b :: bs).length - CHUNK_SIZE = 0 := by
              rw [← hdr, hr]
              rfl
            have htk : ((b :: bs).take CHUNK_SIZE).length = (b :: bs).length := by
              rw [List.length_take]
              omega
            refine ⟨((b :: bs).take CHUNK_SIZE).length, ?_⟩
            rw [hrec, htk]
            simp
          · have hgt : CHUNK_SIZE < (b :: bs).length := by
              rcases Nat.lt_or_ge CHUNK_SIZE ((b :: bs).length) with hx | hx
              · exact hx
              · exact absurd (List.drop_eq_nil_of_le hx) hr
            have htk : ((b :: bs).take CHUNK_SIZE).length = CHUNK_SIZE := by
              rw [List.length_take]
              omega
            obtain ⟨k, hk⟩ := ih ((b :: bs).drop CHUNK_SIZE)
              (total + ((b :: bs).take CHUNK_SIZE).length) hlen hr
            refine ⟨k, ?_⟩
            have hne2 : (transferGo oid none
                (total + ((b :: bs).take CHUNK_SIZE).length) fuel
                ((b :: bs).drop CHUNK_SIZE)).1 ≠ [] := by
              intro hcontra
              rw [hcontra] at hk
              simp at hk
            rw [getLast?_cons_of_ne_nil _ hne2, hk, htk, hdr]
            have harith : total + CHUNK_SIZE + ((b :: bs).length - CHUNK_SIZE) =
                total + (b :: bs).length := by omega
            rw [harith]

/-- The `transfer` generator yields progress events only, never a
complete event, whatever the fault point. -/
theorem transferGo_no_complete (oid : String) :
    ∀ fuel fa src total, countComplete (transferGo oid fa total fuel src).1 = 0 := by
  intro fuel
  induction fuel with
  | zero =>
      intro fa src total
      match fa, src with
      | some 0, _ => simp [transferGo, countComplete]
      | none, [] => rfl
      | some (n+1), [] => rfl
      | none, b :: bs => rfl
      | some (n+1), b :: bs => rfl
  | succ fuel ih =>
      intro fa src total
      match fa, src with
      | some 0, _ => simp [transferGo, countComplete]
      | none, [] => rfl
      | some (n+1), [] => rfl
      | none, b :: bs =>
          simp only [transferGo, Option.map_none']
          simpa [countComplete, isCompleteEvent] using
            ih none (List.drop CHUNK_SIZE (b :: bs)) _
      | some (n+1), b :: bs =>
          simp only [transferGo, Option.map_some']
          simpa [countComplete, isCompleteEvent] using
            ih (some n) (List.drop CHUNK_SIZE (b :: bs)) _

/-- Instance of `transferGo_none_written_err` at the wrapper fuel. -/
theorem transfer_written_err (oid : String) (src : List Nat) :
    (transfer oid none src).2 = (src, none) :=
  transferGo_none_written_err oid (src.length + 1) src 0 (by omega)

/-- Instance of `transferGo_no_complete` at the wrapper fuel. -/
theorem transfer_no_complete (oid : String) (fa : Option Nat) (src : List Nat) :
    countComplete (transfer oid fa src).1 = 0 :=
  transferGo_no_complete oid (src.length + 1) fa src 0

/-- Looking up a key just inserted returns the inserted value. -/
theorem lookupKV_insertKV_self {α : Type} (l : List (String × α)) (k : String)
    (v : α) : lookupKV (insertKV l k v) k = some v := by
  simp [insertKV, lookupKV]

/-- Looking up a key just erased returns nothing. -/
theorem lookupKV_eraseKV_self {α : Type} :
    ∀ (l : List (String × α)) (k : String), lookupKV (eraseKV l k) k = none := by
  intro l k
  induction l with
  | nil => rfl
  | cons p rest ih =>
      obtain ⟨pk, pv⟩ := p
      by_cases h : pk = k <;> simp [eraseKV, lookupKV, h, ih]

/-- Complete events in a concatenation add up. -/
theorem countComplete_append (a b : List Event) :
    countComplete (a ++ b) = countComplete a + countComplete b := by
  simp [countComplete, List.filter_append]

/-- Appending one complete event to a complete-free list gives count 1. -/
theorem countComplete_append_complete (l : List Event)
    (h : countComplete l = 0) (oid : String) (p : Option String)
    (e : Option LfsError) :
    countComplete (l ++ [Event.complete oid p e]) = 1 := by
  rw [countComplete_append, h]
  rfl

/-- A download of a stored fault-free object succeeds: it yields the
transfer's progress events then the complete event with the temp path,
and writes the object bytes to the temp file. -/
theorem download_found_no_fault (url : String) (bk : Backend) (fs : FS)
    (oid : String) (data : List Nat)
    (hbk : lookupKV bk (pathJoin url oid) = some ⟨data, none⟩) :
    download url bk fs oid =
      ⟨(transfer oid none data).1 ++
          [Event.complete oid (some (downloadPath oid)) none],
       insertKV fs (downloadPath oid) data, none⟩ := by
  have herr : (transfer oid none data).2.2 = none :=
    congrArg Prod.snd (transfer_written_err oid data)
  have hw : (transfer oid none data).2.1 = data :=
    congrArg Prod.fst (transfer_written_err oid data)
  simp [download, hbk, herr, hw]

/-- A download either succeeds with exactly one complete event, or
raises having yielded no complete event at all. -/
theorem download_err_cases (url : String) (bk : Backend) (fs : FS) (oid : String) :
    ((download url bk fs oid).err = none ∧
      countComplete (download url bk fs oid).events = 1) ∨
    (∃ e, (download url bk fs oid).err = some e ∧
      countComplete (download url bk fs oid).events = 0) := by
  unfold download
  cases hbk : lookupKV bk (pathJoin url oid) with
  | none => right; exact ⟨_, rfl, rfl⟩
  | some blob =>
      cases herr : (transfer oid blob.failAfterReads blob.data).2.2 with
      | none =>
          left
          constructor
          · simp [herr]
          · simp only [herr]
            rw [countComplete_append,
              transfer_no_complete oid blob.failAfterReads blob.data]
            rfl
      | some e =>
          right
          refine ⟨e, ?_, ?_⟩
          · simp [herr]
          · simp only [herr]
            exact transfer_no_complete oid blob.failAfterReads blob.data

/-- An upload either succeeds with exactly one complete event, or
raises having yielded no complete event at all. -/
theorem upload_err_cases (url : String) (bk : Backend) (fs : FS) (oid : String)
    (p : String) :
    ((upload url bk fs oid p).err = none ∧
      countComplete (upload url bk fs oid p).events = 1) ∨
    (∃ e, (upload url bk fs oid p).err = some e ∧
      countComplete (upload url bk fs oid p).events = 0) := by
  unfold upload
  cases hfs : lookupKV fs p with
  | none => right; exact ⟨_, rfl, rfl⟩
  | some data =>
      cases herr : (transfer oid none data).2.2 with
      | none =>
          left
          constructor
          · simp [herr]
          · simp only [herr]
            rw [countComplete_append, transfer_no_complete oid none data]
            rfl
      | some e =>
          right
          refine ⟨e, ?_, ?_⟩
          · simp [herr]
          · simp only [herr]
            exact transfer_no_complete oid none data

/-- The dispatched operation either returns without exception having
yielded exactly one complete event, or raises having yielded none. -/
theorem dispatch_complete_count (url : String) (fs : FS) (bk : Backend)
    (ev oid : String) (r : Request) :
    ((dispatch url fs bk ev oid r).err = none ∧
      countComplete (dispatch url fs bk ev oid r).events = 1) ∨
    (∃ e, (dispatch url fs bk ev oid r).err = some e ∧
      countComplete (dispatch url fs bk ev oid r).events = 0) := by
  unfold dispatch
  by_cases hd : ev = "download"
  · simp only [hd, if_true]
    by_cases h1 : r.path.isSome ∨ r.extra ≠ []
    · right; simp [h1]; rfl
    · simp only [h1, if_false]
      by_cases h2 : r.size.isNone
      · right; simp [h2]; rfl
      · simp only [h2, if_false]
        rcases download_err_cases url bk fs oid with ⟨he, hc⟩ | ⟨e, he, hc⟩
        · left; exact ⟨he, hc⟩
        · right; exact ⟨e, he, hc⟩
  · simp only [hd, if_false]
    by_cases hu : ev = "upload"
    · simp only [hu, if_true]
      by_cases h1 : r.extra ≠ []
      · right; simp [h1]; rfl
      · simp only [h1, if_false]
        cases hp : r.path with
        | none => right; simp [hp]; rfl
        | some p =>
            cases hs : r.size with
            | none => right; simp [hp, hs]; rfl
            | some n =>
                simp only [hp, hs]
                rcases upload_err_cases url bk fs oid p with ⟨he, hc⟩ | ⟨e, he, hc⟩
                · left; exact ⟨he, hc⟩
                · right; exact ⟨e, he, hc⟩
    · right; simp [hu]; rfl

/-- The handler around a dispatched request always responds with
exactly one complete event, whether or not the operation raised. -/
theorem handleRequest_one_complete (url : String) (fs : FS) (bk : Backend)
    (ev oid : String) (r : Request) :
    countComplete (handleRequest url fs bk ev oid r).events = 1 := by
  unfold handleRequest
  rcases dispatch_complete_count url fs bk ev oid r with ⟨he, hc⟩ | ⟨e, he, hc⟩
  · simp only [he]
    exact hc
  · simp only [he]
    rw [countComplete_append, hc]
    rfl

/-- Unfolding of the protocol loop on an accepted request (not a
terminate, oid present): handle it, then continue with the rest. -/
theorem agentLoop_cons_req (url : String) (fs : FS) (bk : Backend) (r : Request)
    (rest : List Line) (ev oid : String) (hev : r.event = some ev)
    (hne : ev ≠ "terminate") (hoid : r.oid = some oid) :
    agentLoop url fs bk (Line.req r :: rest) =
      ⟨(handleRequest url fs bk ev oid r).events ++
        (agentLoop url (handleRequest url fs bk ev oid r).fs
          (handleRequest url fs bk ev oid r).backend rest).output,
       (agentLoop url (handleRequest url fs bk ev oid r).fs
          (handleRequest url fs bk ev oid r).backend rest).fs,
       (agentLoop url (handleRequest url fs bk ev oid r).fs
          (handleRequest url fs bk ev oid r).backend rest).backend,
       (agentLoop url (handleRequest url fs bk ev oid r).fs
          (handleRequest url fs bk ev oid r).backend rest).clean⟩ := by
  simp [agentLoop, hev, hne, hoid]

/-- Everything after a terminate request is ignored: the loop on any
prefix followed by terminate equals the loop on the prefix alone. -/
theorem agentLoop_append_terminate (url : String) :
    ∀ (pre : List Line) (fs : FS) (bk : Backend) (r : Request) (rest : List Line),
      r.event = some "terminate" →
      agentLoop url fs bk (pre ++ Line.req r :: rest) = agentLoop url fs bk pre := by
  intro pre
  induction pre with
  | nil =>
      intro fs bk r rest hr
      simp [agentLoop, hr]
  | cons l pre ih =>
      intro fs bk r rest hr
      cases l with
      | invalid => rfl
      | req q =>
          cases hq : q.event with
          | none => simp [agentLoop, hq]
          | some ev =>
              by_cases hterm : ev = "terminate"
              · simp [agentLoop, hq, hterm]
              · cases hoid : q.oid with
                | none => simp [agentLoop, hq, hterm, hoid]
                | some oid =>
                    simp only [List.cons_append]
                    rw [agentLoop_cons_req url fs bk q _ ev oid hq hterm hoid,
                        agentLoop_cons_req url fs bk q _ ev oid hq hterm hoid,
                        ih _ _ r rest hr]

/-- Claim C1: for every upload or download request accepted by the
protocol loop, exactly one complete event is emitted for that request,
never zero and never more than one, regardless of how many progress
events preceded it and regardless of whether the operation succeeded or
raised an error; the loop output for the request is exactly the handler
events followed by the continuation output. -/
theorem one_complete_per_request (url : String) (fs : FS) (bk : Backend)
    (ev oid : String) (r : Request) (rest : List Line)
    (hev : r.event = some ev) (hkind : ev = "download" ∨ ev = "upload")
    (hoid : r.oid = some oid) :
    countComplete (handleRequest url fs bk ev oid r).events = 1 ∧
    (agentLoop url fs bk (Line.req r :: rest)).output =
      (handleRequest url fs bk ev oid r).events ++
        (agentLoop url (handleRequest url fs bk ev oid r).fs
          (handleRequest url fs bk ev oid r).backend rest).output := by
  have hne : ev ≠ "terminate" := by
    rcases hkind with h | h <;> simp [h]
  refine ⟨handleRequest_one_complete url fs bk ev oid r, ?_⟩
  rw [agentLoop_cons_req url fs bk r rest ev oid hev hne hoid]

/-- Claim C2: uploading a byte sequence stored in a local file under an
oid and then downloading the same oid from the backend (which
faithfully stores what was written) succeeds and leaves a destination
file containing exactly the original bytes. -/
theorem upload_download_roundtrip (url : String) (fs : FS) (bk : Backend)
    (oid p : String) (data : List Nat) (hfs : lookupKV fs p = some data) :
    (upload url bk fs oid p).err = none ∧
    (download url (upload url bk fs oid p).backend fs oid).err = none ∧
    lookupKV (download url (upload url bk fs oid p).backend fs oid).fs
      (downloadPath oid) = some data := by
  have herr : (transfer oid none data).2 = (data, none) := transfer_written_err oid data
  have h1 : upload url bk fs oid p =
      ⟨(transfer oid none data).1 ++ [Event.complete oid none none],
       insertKV bk (pathJoin url oid) ⟨data, none⟩, none⟩ := by
    have he : (transfer oid none data).2.2 = none := congrArg Prod.snd herr
    have hw : (transfer oid none data).2.1 = data := congrArg Prod.fst herr
    simp [upload, hfs, he, hw]
  rw [h1]
  have hbk2 : lookupKV (insertKV bk (pathJoin url oid) ⟨data, none⟩)
      (pathJoin url oid) = some ⟨data, none⟩ :=
    lookupKV_insertKV_self bk (pathJoin url oid) ⟨data, none⟩
  have h2 := download_found_no_fault url
    (insertKV bk (pathJoin url oid) ⟨data, none⟩) fs oid data hbk2
  refine ⟨rfl, ?_, ?_⟩
  · show (download url (insertKV bk (pathJoin url oid) ⟨data, none⟩) fs oid).err = none
    rw [h2]
  · show lookupKV (download url (insertKV bk (pathJoin url oid) ⟨data, none⟩) fs oid).fs
      (downloadPath oid) = some data
    rw [h2]
    exact lookupKV_insertKV_self fs (downloadPath oid) data

/-- Claim C3: every failure raised while servicing a request, after the
event and oid fields have been read, is caught at the dispatch boundary
and converted into a single complete event with error code 2 and the
exception message, and the protocol loop continues with the remaining
requests rather than crashing. -/
theorem failure_reported_loop_continues (url : String) (fs : FS) (bk : Backend)
    (r : Request) (rest : List Line) (ev oid e : String)
    (hev : r.event = some ev) (hne : ev ≠ "terminate") (hoid : r.oid = some oid)
    (herr : (dispatch url fs bk ev oid r).err = some e) :
    (handleRequest url fs bk ev oid r).events =
      (dispatch url fs bk ev oid r).events ++
        [Event.complete oid none (some ⟨2, e⟩)] ∧
    countComplete (handleRequest url fs bk ev oid r).events = 1 ∧
    agentLoop url fs bk (Line.req r :: rest) =
      ⟨(handleRequest url fs bk ev oid r).events ++
        (agentLoop url (handleRequest url fs bk ev oid r).fs
          (handleRequest url fs bk ev oid r).backend rest).output,
       (agentLoop url (handleRequest url fs bk ev oid r).fs
          (handleRequest url fs bk ev oid r).backend rest).fs,
       (agentLoop url (handleRequest url fs bk ev oid r).fs
          (handleRequest url fs bk ev oid r).backend rest).backend,
       (agentLoop url (handleRequest url fs bk ev oid r).fs
          (handleRequest url fs bk ev oid r).backend rest).clean⟩ := by
  refine ⟨?_, handleRequest_one_complete url fs bk ev oid r,
    agentLoop_cons_req url fs bk r rest ev oid hev hne hoid⟩
  simp [handleRequest, herr]

/-- Claim C4: when a download fails (opening the backend stream or
reading from it), the temporary destination file is deleted before the
error propagates, so a failed download leaves no residual temporary
file on disk, given that none existed beforehand. -/
theorem failed_download_no_residual_file (url : String) (bk : Backend) (fs : FS)
    (oid : String) (e : String)
    (hpre : lookupKV fs (downloadPath oid) = none)
    (herr : (download url bk fs oid).err = some e) :
    lookupKV (download url bk fs oid).fs (downloadPath oid) = none := by
  cases hbk : lookupKV bk (pathJoin url oid) with
  | none =>
      have hfs : (download url bk fs oid).fs = fs := by simp [download, hbk]
      rw [hfs]
      exact hpre
  | some blob =>
      cases ht : (transfer oid blob.failAfterReads blob.data).2.2 with
      | none =>
          exfalso
          have : (download url bk fs oid).err = none := by simp [download, hbk, ht]
          rw [this] at herr
          exact Option.noConfusion herr
      | some e2 =>
          have hfs : (download url bk fs oid).fs = eraseKV fs (downloadPath oid) := by
            simp [download, hbk, ht]
          rw [hfs]
          exact lookupKV_eraseKV_self fs (downloadPath oid)

/-- Claim C5: a transfer of a source of N bytes emits exactly
ceil(N / CHUNK_SIZE) progress events, zero of them when N = 0, the last
one reporting a cumulative byte count equal to N; and a zero-length
download still emits its terminal complete event. -/
theorem progress_event_count (oid : String) (src : List Nat) (url : String)
    (fs : FS) (bk : Backend) :
    (transfer oid none src).1.length = (src.length + CHUNK_SIZE - 1) / CHUNK_SIZE ∧
    (src = [] → (transfer oid none src).1 = []) ∧
    (src ≠ [] → ∃ k, (transfer oid none src).1.getLast? =
      some (Event.progress oid src.length k)) ∧
    (lookupKV bk (pathJoin url oid) = some ⟨[], none⟩ →
      (download url bk fs oid).events =
        [Event.complete oid (some (downloadPath oid)) none]) := by
  refine ⟨transferGo_none_count oid (src.length + 1) src 0 (by omega), ?_, ?_, ?_⟩
  · intro h
    subst h
    rfl
  · intro h
    have := transferGo_none_last oid (src.length + 1) src 0 (by omega) h
    simpa using this
  · intro hbk
    rw [download_found_no_fault url bk fs oid [] hbk]
    rfl

/-- Claim C6: if the first input line is missing, is not valid JSON, or
its event field is not init, or if the configured LFS url cannot be
resolved, the process aborts fatally before emitting the handshake
acknowledgement or any other output line and exits non-zero; no
complete event is emitted. -/
theorem bad_handshake_fatal (cfg : Option String) (input : List Line) (fs : FS)
    (bk : Backend)
    (hbad : input = [] ∨ input.head? = some Line.invalid ∨
      (∃ r rest, input = Line.req r :: rest ∧ r.event ≠ some "init") ∨
      cfg = none) :
    agent cfg input fs bk = ⟨[], fs, bk, false⟩ ∧
    countComplete (agent cfg input fs bk).output = 0 := by
  have hmain : agent cfg input fs bk = ⟨[], fs, bk, false⟩ := by
    rcases hbad with h | h | ⟨r, rest, hin, hne⟩ | h
    · subst h
      rfl
    · cases input with
      | nil => rfl
      | cons l rest =>
          cases l with
          | invalid => rfl
          | req q => simp at h
    · subst hin
      simp [agent, hne]
    · subst h
      cases input with
      | nil => rfl
      | cons l rest =>
          cases l with
          | invalid => rfl
          | req q =>
              by_cases hq : q.event = some "init"
              · simp [agent, hq]
              · simp [agent, hq]
  exact ⟨hmain, by rw [hmain]; rfl⟩

/-- Claim C7: a terminate request stops the loop immediately with no
further output and a clean exit status 0, and end of input is treated
identically to terminate. -/
theorem terminate_eof_identical (url : String) (fs : FS) (bk : Backend)
    (pre rest : List Line) (r : Request) (hr : r.event = some "terminate") :
    agentLoop url fs bk (pre ++ Line.req r :: rest) = agentLoop url fs bk pre ∧
    agentLoop url fs bk (Line.req r :: rest) = ⟨[], fs, bk, true⟩ ∧
    agentLoop url fs bk [] = ⟨[], fs, bk, true⟩ := by
  refine ⟨agentLoop_append_terminate url pre fs bk r rest hr, ?_, rfl⟩
  simp [agentLoop, hr]

/-- Claim C9: a post-handshake request whose event is not terminate and
which lacks an oid field crashes the whole process, because the oid
lookup happens outside the per-transfer error handler: no complete
event is emitted, the rest of the input is not served, and the exit
status is nonzero. -/
theorem missing_oid_crashes (url : String) (fs : FS) (bk : Backend) (r : Request)
    (rest : List Line) (ev : String) (hev : r.event = some ev)
    (hne : ev ≠ "terminate") (hoid : r.oid = none) :
    agentLoop url fs bk (Line.req r :: rest) = ⟨[], fs, bk, false⟩ := by
  simp [agentLoop, hev, hne, hoid]

/-- Claim C10: a post-handshake request carrying an oid whose event
name is neither terminate, upload nor download fails inside the
per-transfer error handler, so the agent emits exactly one complete
event with error code 2 for that oid and continues the session. -/
theorem unknown_event_error_complete (url : String) (fs : FS) (bk : Backend)
    (r : Request) (rest : List Line) (ev oid : String) (hev : r.event = some ev)
    (hne : ev ≠ "terminate") (hd : ev ≠ "download") (hu : ev ≠ "upload")
    (hoid : r.oid = some oid) :
    ∃ msg, agentLoop url fs bk (Line.req r :: rest) =
      ⟨Event.complete oid none (some ⟨2, msg⟩) :: (agentLoop url fs bk rest).output,
       (agentLoop url fs bk rest).fs, (agentLoop url fs bk rest).backend,
       (agentLoop url fs bk rest).clean⟩ := by
  refine ⟨"not a transfer operation: " ++ ev, ?_⟩
  rw [agentLoop_cons_req url fs bk r rest ev oid hev hne hoid]
  have hh : handleRequest url fs bk ev oid r =
      ⟨[Event.complete oid none (some ⟨2, "not a transfer operation: " ++ ev⟩)],
       fs, bk⟩ := by
    simp [handleRequest, dispatch, hd, hu]
  rw [hh]
  simp

/-- Claim C8 counterexample: adding the unknown extra field foo to an
otherwise valid download request changes the emitted event sequence:
the transfer is replaced by a single complete event with error code 2,
because the download signature accepts only oid, size and action. -/
theorem extra_field_changes_output :
    (agentLoop "gs://b" [] [("gs://b/abc", ⟨[1, 2, 3], none⟩)]
      [Line.req ⟨some "download", some "abc", none, some 3, false, ["foo"]⟩]).output ≠
    (agentLoop "gs://b" [] [("gs://b/abc", ⟨[1, 2, 3], none⟩)]
      [Line.req ⟨some "download", some "abc", none, some 3, false, []⟩]).output ∧
    (agentLoop "gs://b" [] [("gs://b/abc", ⟨[1, 2, 3], none⟩)]
      [Line.req ⟨some "download", some "abc", none, some 3, false, ["foo"]⟩]).output =
      [Event.complete "abc" none
        (some ⟨2, "download got an unexpected keyword argument"⟩)] := by
  decide

/-- Claim C8 amended: the leftover fields of a request are passed
through as keyword arguments; the declared-but-unused field action is
ignored and does not change the emitted events, but a field outside the
operation signature makes the call fail, which is caught and reported
as a single complete event with error code 2, after which the session
continues. -/
theorem extra_fields_amended (url : String) (fs : FS) (bk : Backend)
    (r : Request) (rest : List Line) (ev oid : String) (b : Bool)
    (hev : r.event = some ev) (hne : ev ≠ "terminate") (hoid : r.oid = some oid) :
    agentLoop url fs bk (Line.req {r with action := b} :: rest) =
      agentLoop url fs bk (Line.req r :: rest) ∧
    (r.extra ≠ [] → ev = "download" ∨ ev = "upload" →
      ∃ msg, agentLoop url fs bk (Line.req r :: rest) =
        ⟨Event.complete oid none (some ⟨2, msg⟩) ::
            (agentLoop url fs bk rest).output,
         (agentLoop url fs bk rest).fs, (agentLoop url fs bk rest).backend,
         (agentLoop url fs bk rest).clean⟩) := by
  constructor
  · have hev2 : ({r with action := b} : Request).event = some ev := hev
    have hoid2 : ({r with action := b} : Request).oid = some oid := hoid
    rw [agentLoop_cons_req url fs bk _ rest ev oid hev2 hne hoid2,
        agentLoop_cons_req url fs bk r rest ev oid hev hne hoid]
    have hhr : handleRequest url fs bk ev oid {r with action := b} =
        handleRequest url fs bk ev oid r := by
      simp [handleRequest, dispatch]
    rw [hhr]
  · intro hextra hkind
    rw [agentLoop_cons_req url fs bk r rest ev oid hev hne hoid]
    rcases hkind with h | h
    · refine ⟨"download got an unexpected keyword argument", ?_⟩
      subst h
      have hh : handleRequest url fs bk "download" oid r =
          ⟨[Event.complete oid none
             (some ⟨2, "download got an unexpected keyword argument"⟩)],
           fs, bk⟩ := by
        simp [handleRequest, dispatch, hextra]
      rw [hh]
      simp
    · refine ⟨"upload got an unexpected keyword argument", ?_⟩
      subst h
      have hh : handleRequest url fs bk "upload" oid r =
          ⟨[Event.complete oid none
             (some ⟨2, "upload got an unexpected keyword argument"⟩)],
           fs, bk⟩ := by
        simp [handleRequest, dispatch, hextra]
      rw [hh]
      simp

/-- Witness for `one_complete_per_request` on a successful download. -/
theorem one_complete_per_request_witness :
    countComplete (handleRequest "gs://b" [] [("gs://b/abc", ⟨[1, 2, 3], none⟩)]
      "download" "abc"
      ⟨some "download", some "abc", none, some 3, false, []⟩).events = 1 ∧
    (agentLoop "gs://b" [] [("gs://b/abc", ⟨[1, 2, 3], none⟩)]
      [Line.req ⟨some "download", some "abc", none, some 3, false, []⟩]).output =
      (handleRequest "gs://b" [] [("gs://b/abc", ⟨[1, 2, 3], none⟩)]
        "download" "abc"
        ⟨some "download", some "abc", none, some 3, false, []⟩).events ++
      (agentLoop "gs://b"
        (handleRequest "gs://b" [] [("gs://b/abc", ⟨[1, 2, 3], none⟩)]
          "download" "abc"
          ⟨some "download", some "abc", none, some 3, false, []⟩).fs
        (handleRequest "gs://b" [] [("gs://b/abc", ⟨[1, 2, 3], none⟩)]
          "download" "abc"
          ⟨some "download", some "abc", none, some 3, false, []⟩).backend
        []).output :=
  one_complete_per_request "gs://b" [] [("gs://b/abc", ⟨[1, 2, 3], none⟩)]
    "download" "abc" ⟨some "download", some "abc", none, some 3, false, []⟩ []
    rfl (Or.inl rfl) rfl

/-- Witness for `upload_download_roundtrip` on two concrete bytes. -/
theorem upload_download_roundtrip_witness :
    (upload "gs://b" [] [("f", [7, 8])] "abc" "f").err = none ∧
    (download "gs://b" (upload "gs://b" [] [("f", [7, 8])] "abc" "f").backend
      [("f", [7, 8])] "abc").err = none ∧
    lookupKV (download "gs://b"
      (upload "gs://b" [] [("f", [7, 8])] "abc" "f").backend
      [("f", [7, 8])] "abc").fs (downloadPath "abc") = some [7, 8] :=
  upload_download_roundtrip "gs://b" [("f", [7, 8])] [] "abc" "f" [7, 8] (by decide)

/-- Witness for `failure_reported_loop_continues` on a download of a
missing object. -/
theorem failure_reported_loop_continues_witness :
    (handleRequest "gs://b" [] [] "download" "abc"
      ⟨some "download", some "abc", none, some 3, false, []⟩).events =
      (dispatch "gs://b" [] [] "download" "abc"
        ⟨some "download", some "abc", none, some 3, false, []⟩).events ++
        [Event.complete "abc" none (some ⟨2, "no such object: gs://b/abc"⟩)] ∧
    countComplete (handleRequest "gs://b" [] [] "download" "abc"
      ⟨some "download", some "abc", none, some 3, false, []⟩).events = 1 ∧
    agentLoop "gs://b" [] []
      [Line.req ⟨some "download", some "abc", none, some 3, false, []⟩] =
      ⟨(handleRequest "gs://b" [] [] "download" "abc"
          ⟨some "download", some "abc", none, some 3, false, []⟩).events ++
        (agentLoop "gs://b"
          (handleRequest "gs://b" [] [] "download" "abc"
            ⟨some "download", some "abc", none, some 3, false, []⟩).fs
          (handleRequest "gs://b" [] [] "download" "abc"
            ⟨some "download", some "abc", none, some 3, false, []⟩).backend
          []).output,
       (agentLoop "gs://b"
          (handleRequest "gs://b" [] [] "download" "abc"
            ⟨some "download", some "abc", none, some 3, false, []⟩).fs
          (handleRequest "gs://b" [] [] "download" "abc"
            ⟨some "download", some "abc", none, some 3, false, []⟩).backend
          []).fs,
       (agentLoop "gs://b"
          (handleRequest "gs://b" [] [] "download" "abc"
            ⟨some "download", some "abc", none, some 3, false, []⟩).fs
          (handleRequest "gs://b" [] [] "download" "abc"
            ⟨some "download", some "abc", none, some 3, false, []⟩).backend
          []).backend,
       (agentLoop "gs://b"
          (handleRequest "gs://b" [] [] "download" "abc"
            ⟨some "download", some "abc", none, some 3, false, []⟩).fs
          (handleRequest "gs://b" [] [] "download" "abc"
            ⟨some "download", some "abc", none, some 3, false, []⟩).backend
          []).clean⟩ :=
  failure_reported_loop_continues "gs://b" [] []
    ⟨some "download", some "abc", none, some 3, false, []⟩ []
    "download" "abc" "no such object: gs://b/abc" rfl (by decide) rfl (by decide)

/-- Witness for `failed_download_no_residual_file` on a backend stream
that raises on its first read. -/
theorem failed_download_no_residual_file_witness :
    lookupKV (download "gs://b" [("gs://b/abc", ⟨[1, 2, 3], some 0⟩)]
      [] "abc").fs (downloadPath "abc") = none :=
  failed_download_no_residual_file "gs://b" [("gs://b/abc", ⟨[1, 2, 3], some 0⟩)]
    [] "abc" "backend read failed" (by decide) (by decide)

/-- Witness for `progress_event_count` on a three-byte source and a
zero-length object. -/
theorem progress_event_count_witness :
    (transfer "abc" none [1, 2, 3]).1.length = (3 + CHUNK_SIZE - 1) / CHUNK_SIZE ∧
    (∃ k, (transfer "abc" none [1, 2, 3]).1.getLast? =
      some (Event.progress "abc" 3 k)) ∧
    (transfer "xyz" none ([] : List Nat)).1 = [] ∧
    (download "gs://b" [("gs://b/abc", ⟨[], none⟩)] [] "abc").events =
      [Event.complete "abc" (some (downloadPath "abc")) none] :=
  ⟨(progress_event_count "abc" [1, 2, 3] "gs://b" []
      [("gs://b/abc", ⟨[], none⟩)]).1,
   (progress_event_count "abc" [1, 2, 3] "gs://b" []
      [("gs://b/abc", ⟨[], none⟩)]).2.2.1 (by decide),
   (progress_event_count "xyz" ([] : List Nat) "gs://b" []
      [("gs://b/abc", ⟨[], none⟩)]).2.1 rfl,
   (progress_event_count "abc" [1, 2, 3] "gs://b" []
      [("gs://b/abc", ⟨[], none⟩)]).2.2.2 (by decide)⟩

/-- Witness for `bad_handshake_fatal` on empty input. -/
theorem bad_handshake_fatal_witness :
    agent none [] [] [] = ⟨[], [], [], false⟩ ∧
    countComplete (agent none [] [] []).output = 0 :=
  bad_handshake_fatal none [] [] [] (Or.inl rfl)

/-- Witness for `terminate_eof_identical` with trailing garbage after
the terminate request. -/
theorem terminate_eof_identical_witness :
    agentLoop "gs://b" [] []
      ([] ++ Line.req ⟨some "terminate", none, none, none, false, []⟩ ::
        [Line.invalid]) = agentLoop "gs://b" [] [] [] ∧
    agentLoop "gs://b" [] []
      (Line.req ⟨some "terminate", none, none, none, false, []⟩ ::
        [Line.invalid]) = ⟨[], [], [], true⟩ ∧
    agentLoop "gs://b" [] [] [] = ⟨[], [], [], true⟩ :=
  terminate_eof_identical "gs://b" [] [] [] [Line.invalid]
    ⟨some "terminate", none, none, none, false, []⟩ rfl

/-- Witness for `extra_fields_amended` on a download request carrying
the extra field foo. -/
theorem extra_fields_amended_witness :
    agentLoop "gs://b" [] [("gs://b/abc", ⟨[1, 2, 3], none⟩)]
      [Line.req ⟨some "download", some "abc", none, some 3, true, ["foo"]⟩] =
      agentLoop "gs://b" [] [("gs://b/abc", ⟨[1, 2, 3], none⟩)]
        [Line.req ⟨some "download", some "abc", none, some 3, false, ["foo"]⟩] ∧
    ((["foo"] : List String) ≠ [] → "download" = "download" ∨ "download" = "upload" →
      ∃ msg, agentLoop "gs://b" [] [("gs://b/abc", ⟨[1, 2, 3], none⟩)]
        [Line.req ⟨some "download", some "abc", none, some 3, false, ["foo"]⟩] =
        ⟨Event.complete "abc" none (some ⟨2, msg⟩) ::
            (agentLoop "gs://b" [] [("gs://b/abc", ⟨[1, 2, 3], none⟩)] []).output,
         (agentLoop "gs://b" [] [("gs://b/abc", ⟨[1, 2, 3], none⟩)] []).fs,
         (agentLoop "gs://b" [] [("gs://b/abc", ⟨[1, 2, 3], none⟩)] []).backend,
         (agentLoop "gs://b" [] [("gs://b/abc", ⟨[1, 2, 3], none⟩)] []).clean⟩) :=
  extra_fields_amended "gs://b" [] [("gs://b/abc", ⟨[1, 2, 3], none⟩)]
    ⟨some "download", some "abc", none, some 3, false, ["foo"]⟩ []
    "download" "abc" true rfl (by decide) rfl

/-- Witness for `missing_oid_crashes` on a download request with no
oid field. -/
theorem missing_oid_crashes_witness :
    agentLoop "gs://b" [] []
      [Line.req ⟨some "download", none, none, some 3, false, []⟩] =
      ⟨[], [], [], false⟩ :=
  missing_oid_crashes "gs://b" [] []
    ⟨some "download", none, none, some 3, false, []⟩ [] "download"
    rfl (by decide) rfl

/-- Witness for `unknown_event_error_complete` on the event name
frobnicate. -/
theorem unknown_event_error_complete_witness :
    ∃ msg, agentLoop "gs://b" [] []
      [Line.req ⟨some "frobnicate", some "abc", none, none, false, []⟩] =
      ⟨Event.complete "abc" none (some ⟨2, msg⟩) ::
          (agentLoop "gs://b" [] [] []).output,
       (agentLoop "gs://b" [] [] []).fs,
       (agentLoop "gs://b" [] [] []).backend,
       (agentLoop "gs://b" [] [] []).clean⟩ :=
  unknown_event_error_complete "gs://b" [] []
    ⟨some "frobnicate", some "abc", none, none, false, []⟩ []
    "frobnicate" "abc" rfl (by decide) (by decide) (by decide) rfl
